import Mathlib

/-!
Verification development for the AttReplace repository (`main.py`).

The repository distills selected transformer blocks of a pretrained DeiT model
into MLP-Mixer blocks.  Its own logic is module surgery on a model object:

  * `replace_att2mixer` (main.py lines 142-150): overwrite `model.blocks[i]`
    with a freshly built `MixerBlock` for each listed index;
  * `cut_extra_layers` (main.py lines 153-160): overwrite `model.blocks[i]`
    with `EmptyBlock()` for `i in range(max_index + 1, depth)` and null the
    `norm` / `fc_norm` / `head_drop` / `head` layers;
  * `set_requires_grad` (main.py lines 163-172): set each named parameter's
    `requires_grad` flag by substring matching against `"blocks.<target>"`;
  * the head-key dropping and positional-embedding resampling steps of
    `load_weight` (main.py lines 103-139);
  * the control flow of `main` (main.py lines 175-279).

The shallow embedding below models a model object as a record whose `blocks`
field is a list, and models Python/PyTorch `nn.Sequential.__setitem__`
semantics explicitly: an integer index `i` is valid iff
`-len(blocks) <= i < len(blocks)` and is reduced modulo the length (negative
indices address the sequence from its end); an invalid index raises
`IndexError`.  Fallible code returns `Except String`.
-/

/-- A block of the model's sequential stack.  `original n` stands for the
`n`-th native attention block produced by the model factory, `mixer a b c d`
for a `MixerBlock(num_patches, token_hid_dim, channels_dim, channels_hid_dim)`
(the class itself lives in `models.py`, which is not part of the sources;
its constructor arguments are exactly the four hyperparameters passed at
main.py lines 144-147), and `empty` for an `EmptyBlock()` pass-through. -/
inductive Block where
  | original : Nat → Block
  | mixer : Nat → Nat → Nat → Nat → Block
  | empty : Block
deriving DecidableEq

/-- An auxiliary layer slot of the model (`norm`, `fc_norm`, `head_drop`,
`head`, or the patch embedding).  `native n` is the layer the model factory
built; `identity` is `nn.Identity()`. -/
inductive Layer where
  | native : Nat → Layer
  | identity : Layer
deriving DecidableEq

/-- The mutable model object manipulated by `main.py`: a sequential list of
blocks plus the auxiliary layers touched by `cut_extra_layers`. -/
structure Model where
  patch_embed : Layer
  blocks : List Block
  norm : Layer
  fc_norm : Layer
  head_drop : Layer
  head : Layer
deriving DecidableEq

/-- Modelled from the spec: the architecture parameter table `param_dict`
of `models.py` (not under the sources) maps a model name to the structural
hyperparameters `{num_patches, token_hid_dim, channels_dim, channels_hid_dim}`
used to build a replacement `MixerBlock`. -/
structure ArchParams where
  num_patches : Nat
  token_hid_dim : Nat
  channels_dim : Nat
  channels_hid_dim : Nat
deriving DecidableEq

/-- Python `model.blocks[i] = b` on an `nn.Sequential` of length `n`:
valid iff `-n ≤ i < n`; the effective position is `i % n` (Euclidean
remainder, matching Python `%` for a positive modulus); an invalid index
raises `IndexError`. -/
def setBlockE (bs : List Block) (i : Int) (b : Block) : Except String (List Block) :=
  if -(bs.length : Int) ≤ i ∧ i < (bs.length : Int) then
    Except.ok (bs.set (i % (bs.length : Int)).toNat b)
  else Except.error "IndexError"

/-- A loop `for i in idxs: blocks[i] = b`, propagating the first
`IndexError`. -/
def setManyE (bs : List Block) (idxs : List Int) (b : Block) : Except String (List Block) :=
  idxs.foldlM (fun acc i => setBlockE acc i b) bs

/-- main.py lines 142-150.  For every `blk_index` in `repl_blocks`, build
`MixerBlock(param_dict[model_name][...])` (a `KeyError` if `model_name` is
absent from the table — looked up inside the loop body, hence only when the
loop runs) and assign it to `model.blocks[blk_index]`.  The table is passed
explicitly since `param_dict` lives in `models.py`. -/
def replace_att2mixer (param_dict : String → Option ArchParams) (model : Model)
    (repl_blocks : List Int) (model_name : String) : Except String Model := do
  let blocks ← repl_blocks.foldlM (fun bs blk_index =>
    match param_dict model_name with
    | none => Except.error "KeyError"
    | some p =>
        setBlockE bs blk_index
          (Block.mixer p.num_patches p.token_hid_dim p.channels_dim p.channels_hid_dim))
    model.blocks
  pure { model with blocks := blocks }

/-- The integer list produced by Python `range(a, b)`. -/
def intRange (a b : Int) : List Int :=
  (List.range (b - a).toNat).map (fun (k : Nat) => a + (k : Int))

/-- main.py lines 153-160.  `for index in range(max_index + 1, depth):
model.blocks[index] = EmptyBlock()`, then `norm`, `fc_norm`, `head_drop`
and `head` are all set to `nn.Identity()`.  `depth` defaults to 12 as in
the source. -/
def cut_extra_layers (model : Model) (max_index : Int) (depth : Int := 12) :
    Except String Model :=
  setManyE model.blocks (intRange (max_index + 1) depth) Block.empty >>= fun blocks =>
    pure { model with
           blocks := blocks
           norm := Layer.identity
           fc_norm := Layer.identity
           head_drop := Layer.identity
           head := Layer.identity }

/-- Python `max(list)` for the nonempty lists the orchestrator passes
(`max(args.replace)` at main.py lines 243-244); `0` on `[]`. -/
def maxIntList : List Int → Int
  | [] => 0
  | x :: xs => xs.foldl max x

/-- The orchestrator's truncation call, main.py lines 243-244:
`cut_extra_layers(model, max(args.replace))` — no `depth` argument, so the
default depth 12 is always used. -/
def orchestratorTruncate (model : Model) (replace : List Int) : Except String Model :=
  cut_extra_layers model (maxIntList replace)

/-- Character-list version of string containment: `isPrefL t s` holds iff
`t` is an initial segment of `s`. -/
def isPrefL : List Char → List Char → Bool
  | [], _ => true
  | _ :: _, [] => false
  | a :: as, b :: bs => a == b && isPrefL as bs

/-- `isInfL t s` decides whether `t` occurs contiguously inside `s`;
this is Python's `t in s` on strings. -/
def isInfL (t : List Char) : List Char → Bool
  | [] => isPrefL t []
  | b :: bs => isPrefL t (b :: bs) || isInfL t bs

/-- Python `target in name` for strings. -/
def strHasSub (target name : String) : Bool := isInfL target.data name.data

/-- main.py lines 163-172.  The model's named parameters are embedded as a
list of `(name, requires_grad)` pairs.  `target_names` is
`["blocks.<t>" for t in targets]`; every parameter whose name contains some
target name gets `requires_grad = not freeze`, every other parameter gets
`requires_grad = freeze` (this is the source's branch assignment, verbatim). -/
def set_requires_grad (params : List (String × Bool)) (targets : List Int)
    (freeze : Bool := true) : List (String × Bool) :=
  let target_names := targets.map (fun target => "blocks." ++ toString target)
  params.map (fun nparam =>
    if target_names.any (fun target => strHasSub target nparam.1) then (nparam.1, !freeze)
    else (nparam.1, freeze))

/-- A state dict / checkpoint dict: parameter names mapped to tensor shapes. -/
abbrev StateDict := List (String × List Nat)

/-- Python `d[k]` lookup returning `none` when the key is absent (dict keys
are unique; the association list is scanned front to back). -/
def lookupKey : StateDict → String → Option (List Nat)
  | [], _ => none
  | kv :: tl, k => if kv.1 = k then some kv.2 else lookupKey tl k

/-- Python `del d[k]`: drop the entry for `k`. -/
def eraseKey : StateDict → String → StateDict
  | [], _ => []
  | kv :: tl, k => if kv.1 = k then eraseKey tl k else kv :: eraseKey tl k

/-- The four classification-head keys of main.py line 111. -/
def head_keys : List String := ["head.weight", "head.bias", "head_dist.weight", "head_dist.bias"]

/-- One iteration of the loop at main.py lines 111-114:
`if k in checkpoint_model and checkpoint_model[k].shape != state_dict[k].shape:
del checkpoint_model[k]`.  The conjunction short-circuits, so
`state_dict[k]` is only evaluated when `k` is in the checkpoint; if the model
has no parameter `k`, that unconditional lookup raises `KeyError`. -/
def dropHeadKeyStep (state ckpt : StateDict) (k : String) : Except String StateDict :=
  match lookupKey ckpt k with
  | none => Except.ok ckpt
  | some shp =>
    match lookupKey state k with
    | none => Except.error "KeyError"
    | some sshp => Except.ok (if shp = sshp then ckpt else eraseKey ckpt k)

/-- The head-key dropping loop of `load_weight`, main.py lines 111-114. -/
def load_weight_drop_head_keys (state ckpt : StateDict) : Except String StateDict :=
  head_keys.foldlM (fun c k => dropHeadKeyStep state c k) ckpt

/-- `isErrE r` is `true` iff the computation raised. -/
def isErrE {α : Type} (r : Except String α) : Bool :=
  match r with
  | Except.error _ => true
  | Except.ok _ => false

/-- Block stored at position `j` by a successful surgery result (`none` when
the computation raised or `j` is out of range). -/
def exGetBlock (r : Except String Model) (j : Nat) : Option Block :=
  match r with
  | Except.ok m => m.blocks.get? j
  | Except.error _ => none

/-- PyTorch's cubic convolution kernel piece for `x ∈ [0, 1]` with
`A = -0.75`: `((A + 2) * x - (A + 3)) * x * x + 1`. -/
def cubicConv1 (t : ℚ) : ℚ := ((5 / 4) * t - 9 / 4) * t * t + 1

/-- PyTorch's cubic convolution kernel piece for `x ∈ (1, 2]` with
`A = -0.75`: `((A * x - 5 * A) * x + 8 * A) * x - 4 * A`. -/
def cubicConv2 (t : ℚ) : ℚ := (((-3 / 4) * t + 15 / 4) * t - 6) * t + 3

/-- One-dimensional cubic interpolation of four consecutive samples at
fractional offset `t` from the second one, exactly PyTorch's
`cubic_interp1d` with its `get_cubic_upsample_coefficients` weights. -/
def cubicInterp1D (t p0 p1 p2 p3 : ℚ) : ℚ :=
  cubicConv2 (t + 1) * p0 + cubicConv1 t * p1 + cubicConv1 (1 - t) * p2 + cubicConv2 (2 - t) * p3

/-- Source coordinate for output index `o` under
`torch.nn.functional.interpolate(..., mode='bicubic', align_corners=False)`:
`(o + 0.5) * inSize / outSize - 0.5`. -/
def srcCoord (inSize outSize o : Nat) : ℚ :=
  ((o : ℚ) + 1 / 2) * ((inSize : ℚ) / (outSize : ℚ)) - 1 / 2

/-- Border replication: sample accesses are clamped to `[0, n - 1]`. -/
def clampIdx (n : Nat) (x : Int) : Nat := (min (max x 0) ((n : Int) - 1)).toNat

/-- Bicubic sampling of the square grid `g` (of side `inSize`) at output
position `(r, c)` of an `outSize × outSize` target grid: the separable
4×4-tap kernel of `upsample_bicubic2d` (interpolate along one axis at the
four neighbouring rows, then across rows), with border replication. -/
def bicubicSample (g : Nat → Nat → ℚ) (inSize outSize r c : Nat) : ℚ :=
  let rr := srcCoord inSize outSize r
  let cr := srcCoord inSize outSize c
  let r0 : Int := ⌊rr⌋
  let c0 : Int := ⌊cr⌋
  let tr := rr - (r0 : ℚ)
  let tc := cr - (c0 : ℚ)
  let at2 : Int → Int → ℚ := fun a b => g (clampIdx inSize a) (clampIdx inSize b)
  cubicInterp1D tr
    (cubicInterp1D tc (at2 (r0 - 1) (c0 - 1)) (at2 (r0 - 1) c0) (at2 (r0 - 1) (c0 + 1))
      (at2 (r0 - 1) (c0 + 2)))
    (cubicInterp1D tc (at2 r0 (c0 - 1)) (at2 r0 c0) (at2 r0 (c0 + 1)) (at2 r0 (c0 + 2)))
    (cubicInterp1D tc (at2 (r0 + 1) (c0 - 1)) (at2 (r0 + 1) c0) (at2 (r0 + 1) (c0 + 1))
      (at2 (r0 + 1) (c0 + 2)))
    (cubicInterp1D tc (at2 (r0 + 2) (c0 - 1)) (at2 (r0 + 2) c0) (at2 (r0 + 2) (c0 + 1))
      (at2 (r0 + 2) (c0 + 2)))

/-- Entry `(i, e)` (position row `i`, embedding channel `e`) of the
`new_pos_embed` tensor built at main.py lines 117-133, for a checkpoint
positional-embedding tensor `ckpt` with `ckptRows` rows (batch dimension 1).
Index-level reading of the source: `torch.cat((extra_tokens, pos_tokens), 1)`
keeps rows `i < numExtra` verbatim (`extra_tokens = ckpt[:, :numExtra]`);
a later row `i` is entry `(d / newSize, d % newSize)` (with `d = i - numExtra`)
of the bicubic resampling of the grid portion, where the
`reshape(-1, orig_size, orig_size, embedding_size)` of `ckpt[:, numExtra:]`
places checkpoint row `numExtra + a * origSize + b` at grid cell `(a, b)`,
`orig_size = int((ckptRows - numExtra) ** 0.5)` and the channel dimension is
carried through the two `permute`s untouched. -/
def load_weight_new_pos_embed (ckpt : Nat → Nat → ℚ) (ckptRows numExtra newSize i e : Nat) : ℚ :=
  if i < numExtra then ckpt i e
  else
    let origSize := Nat.sqrt (ckptRows - numExtra)
    let d := i - numExtra
    bicubicSample (fun a b => ckpt (numExtra + (a * origSize + b)) e) origSize newSize
      (d / newSize) (d % newSize)

/-- Observable steps of `main` (main.py lines 175-279), in program order. -/
inductive Effect where
  | buildDataset
  | createModel
  | deepcopyModel
  | replaceBlocks
  | loadWeights
  | cutLayers
  | setGrad
  | trainLoop
  | evalSetup
deriving DecidableEq

/-- Control flow of `main` as the list of effects it performs together with
the error it raises, if any.  main.py: datasets are built (lines 193-213),
the DeiT model is created (217-225), deep-copied (226) and its blocks
replaced (228) unconditionally; only then does the `eval`/`train` dispatch
run, and `else: raise ValueError("Please specify running mode (eval/train).")`
(lines 278-279) fires when neither or both flags are set. -/
def mainTrace (argTrain argEval : Bool) : List Effect × Option String :=
  let pre := [Effect.buildDataset, Effect.buildDataset, Effect.createModel,
              Effect.deepcopyModel, Effect.replaceBlocks]
  if argEval && !argTrain then
    (pre ++ [Effect.loadWeights, Effect.evalSetup], none)
  else if argTrain && !argEval then
    (pre ++ [Effect.loadWeights, Effect.loadWeights, Effect.cutLayers, Effect.cutLayers,
             Effect.setGrad, Effect.setGrad, Effect.trainLoop], none)
  else
    (pre, some "Please specify running mode (eval/train).")

/-- A demonstration architecture table holding the one model name the script
pins (`deit_tiny_patch16_224`): 196 patches, embedding width 192. -/
def demoTable : String → Option ArchParams := fun name =>
  if name = "deit_tiny_patch16_224" then
    some { num_patches := 196, token_hid_dim := 196, channels_dim := 192, channels_hid_dim := 768 }
  else none

/-- A 12-block model as the DeiT-tiny factory produces it. -/
def demoModel : Model :=
  { patch_embed := Layer.native 0
    blocks := (List.range 12).map Block.original
    norm := Layer.native 1
    fc_norm := Layer.native 2
    head_drop := Layer.native 3
    head := Layer.native 4 }

/-- A 25-block model (a depth-25 architecture fed to the same pipeline). -/
def bigModel : Model :=
  { demoModel with blocks := (List.range 25).map Block.original }

theorem ex_bind_ok {α β : Type} (a : α) (f : α → Except String β) :
    (Except.ok a >>= f) = f a := rfl

theorem ex_bind_err {α β : Type} (s : String) (f : α → Except String β) :
    ((Except.error s : Except String α) >>= f) = Except.error s := rfl

theorem setBlockE_ok_of {bs : List Block} {i : Int} (b : Block)
    (h : -(bs.length : Int) ≤ i ∧ i < (bs.length : Int)) :
    setBlockE bs i b = Except.ok (bs.set (i % (bs.length : Int)).toNat b) := by
  unfold setBlockE
  rw [if_pos h]

theorem setBlockE_err_of {bs : List Block} {i : Int} (b : Block)
    (h : ¬(-(bs.length : Int) ≤ i ∧ i < (bs.length : Int))) :
    setBlockE bs i b = Except.error "IndexError" := by
  unfold setBlockE
  rw [if_neg h]

theorem setBlockE_pos_lt {bs : List Block} {i : Int}
    (h : -(bs.length : Int) ≤ i ∧ i < (bs.length : Int)) :
    (i % (bs.length : Int)).toNat < bs.length := by
  have hlen : (0 : Int) < (bs.length : Int) := by omega
  have h1 := Int.emod_nonneg i (by omega : (bs.length : Int) ≠ 0)
  have h2 := Int.emod_lt_of_pos i hlen
  omega

theorem setBlockE_ok_inv {bs bs1 : List Block} {i : Int} {b : Block}
    (h : setBlockE bs i b = Except.ok bs1) :
    (-(bs.length : Int) ≤ i ∧ i < (bs.length : Int)) ∧
      bs1 = bs.set (i % (bs.length : Int)).toNat b := by
  unfold setBlockE at h
  split at h
  case isTrue hc =>
    injection h with h2
    exact ⟨hc, h2.symm⟩
  case isFalse hc => exact Except.noConfusion h

theorem setManyE_nil (bs : List Block) (b : Block) : setManyE bs [] b = Except.ok bs := rfl

theorem setManyE_cons (bs : List Block) (i : Int) (idxs : List Int) (b : Block) :
    setManyE bs (i :: idxs) b = (setBlockE bs i b >>= fun bs1 => setManyE bs1 idxs b) := rfl

theorem setManyE_ok (b : Block) (idxs : List Int) :
    ∀ bs : List Block, (∀ i ∈ idxs, -(bs.length : Int) ≤ i ∧ i < (bs.length : Int)) →
      ∃ bs', setManyE bs idxs b = Except.ok bs' ∧ bs'.length = bs.length := by
  induction idxs with
  | nil => exact fun bs _ => ⟨bs, rfl, rfl⟩
  | cons i idxs ih =>
    intro bs h
    have hcond := h i (List.mem_cons_self i idxs)
    have hlen := List.length_set bs (i % (bs.length : Int)).toNat b
    obtain ⟨bs', h1, h2⟩ := ih (bs.set (i % (bs.length : Int)).toNat b)
      (by rw [hlen]; exact fun j hj => h j (List.mem_cons_of_mem i hj))
    refine ⟨bs', ?_, by rw [h2, hlen]⟩
    rw [setManyE_cons, setBlockE_ok_of b hcond, ex_bind_ok]
    exact h1

theorem setManyE_keep (b : Block) (idxs : List Int) :
    ∀ (bs bs' : List Block) (j : Nat), setManyE bs idxs b = Except.ok bs' →
      bs[j]? = some b → bs'[j]? = some b := by
  induction idxs with
  | nil =>
    intro bs bs' j h hj
    rw [setManyE_nil] at h
    injection h with h
    rw [← h]
    exact hj
  | cons i idxs ih =>
    intro bs bs' j h hj
    rw [setManyE_cons] at h
    cases hset : setBlockE bs i b with
    | error e =>
      rw [hset, ex_bind_err] at h
      exact Except.noConfusion h
    | ok bs1 =>
      rw [hset, ex_bind_ok] at h
      obtain ⟨hc, rfl⟩ := setBlockE_ok_inv hset
      refine ih _ _ j h ?_
      by_cases hji : (i % (bs.length : Int)).toNat = j
      · rw [← hji]
        exact List.getElem?_set_self (setBlockE_pos_lt hc)
      · rw [List.getElem?_set_ne hji]
        exact hj

theorem setManyE_hit (b : Block) (idxs : List Int) :
    ∀ (bs bs' : List Block) (i : Int) (j : Nat), setManyE bs idxs b = Except.ok bs' →
      i ∈ idxs → (i % (bs.length : Int)).toNat = j → bs'[j]? = some b := by
  induction idxs with
  | nil =>
    intro bs bs' i j h hi hij
    exact absurd hi (List.not_mem_nil i)
  | cons x idxs ih =>
    intro bs bs' i j h hi hij
    rw [setManyE_cons] at h
    cases hset : setBlockE bs x b with
    | error e =>
      rw [hset, ex_bind_err] at h
      exact Except.noConfusion h
    | ok bs1 =>
      rw [hset, ex_bind_ok] at h
      obtain ⟨hc, rfl⟩ := setBlockE_ok_inv hset
      rcases List.mem_cons.mp hi with rfl | hmem
      · refine setManyE_keep b idxs _ _ j h ?_
        rw [← hij]
        exact List.getElem?_set_self (setBlockE_pos_lt hc)
      · refine ih _ _ i j h hmem ?_
        rw [List.length_set]
        exact hij

theorem setManyE_miss (b : Block) (idxs : List Int) :
    ∀ (bs bs' : List Block) (j : Nat), setManyE bs idxs b = Except.ok bs' →
      (∀ i ∈ idxs, (i % (bs.length : Int)).toNat ≠ j) → bs'[j]? = bs[j]? := by
  induction idxs with
  | nil =>
    intro bs bs' j h _
    rw [setManyE_nil] at h
    injection h with h
    rw [← h]
  | cons x idxs ih =>
    intro bs bs' j h hmiss
    rw [setManyE_cons] at h
    cases hset : setBlockE bs x b with
    | error e =>
      rw [hset, ex_bind_err] at h
      exact Except.noConfusion h
    | ok bs1 =>
      rw [hset, ex_bind_ok] at h
      obtain ⟨hc, rfl⟩ := setBlockE_ok_inv hset
      have h1 := ih _ _ j h (by
        intro i hi
        rw [List.length_set]
        exact hmiss i (List.mem_cons_of_mem x hi))
      rw [h1, List.getElem?_set_ne (hmiss x (List.mem_cons_self x idxs))]

theorem setManyE_err_iff (b : Block) (idxs : List Int) :
    ∀ bs : List Block, isErrE (setManyE bs idxs b) = true ↔
      ∃ i ∈ idxs, ¬(-(bs.length : Int) ≤ i ∧ i < (bs.length : Int)) := by
  induction idxs with
  | nil =>
    intro bs
    simp [setManyE_nil, isErrE]
  | cons x idxs ih =>
    intro bs
    rw [setManyE_cons]
    by_cases hc : -(bs.length : Int) ≤ x ∧ x < (bs.length : Int)
    · rw [setBlockE_ok_of b hc, ex_bind_ok, ih (bs.set (x % (bs.length : Int)).toNat b)]
      simp only [List.length_set]
      constructor
      · rintro ⟨i, hi, hni⟩
        exact ⟨i, List.mem_cons_of_mem x hi, hni⟩
      · rintro ⟨i, hi, hni⟩
        rcases List.mem_cons.mp hi with rfl | hmem
        · exact absurd hc hni
        · exact ⟨i, hmem, hni⟩
    · rw [setBlockE_err_of b hc, ex_bind_err]
      constructor
      · intro _
        exact ⟨x, List.mem_cons_self x idxs, hc⟩
      · intro _
        rfl

theorem intRange_mem {a b i : Int} : i ∈ intRange a b ↔ a ≤ i ∧ i < b := by
  unfold intRange
  constructor
  · intro h
    obtain ⟨k, hk, hek⟩ := List.mem_map.mp h
    rw [List.mem_range] at hk
    omega
  · intro h
    refine List.mem_map.mpr ⟨(i - a).toNat, List.mem_range.mpr (by omega), ?_⟩
    show a + ((i - a).toNat : Int) = i
    omega

theorem replace_eq_setManyE (param_dict : String → Option ArchParams) (model : Model)
    (repl_blocks : List Int) (model_name : String) (p : ArchParams)
    (hp : param_dict model_name = some p) :
    replace_att2mixer param_dict model repl_blocks model_name =
      setManyE model.blocks repl_blocks
          (Block.mixer p.num_patches p.token_hid_dim p.channels_dim p.channels_hid_dim) >>=
        fun blocks => pure { model with blocks := blocks } := by
  unfold replace_att2mixer setManyE
  rw [hp]

theorem replace_nil_eq (param_dict : String → Option ArchParams) (model : Model)
    (model_name : String) :
    replace_att2mixer param_dict model [] model_name = Except.ok model := rfl

theorem replace_none_cons (param_dict : String → Option ArchParams) (model : Model)
    (x : Int) (xs : List Int) (model_name : String)
    (hp : param_dict model_name = none) :
    replace_att2mixer param_dict model (x :: xs) model_name = Except.error "KeyError" := by
  unfold replace_att2mixer
  rw [hp]
  rfl

theorem lookupKey_eraseKey_ne (k0 k : String) (hne : k ≠ k0) :
    ∀ d : StateDict, lookupKey (eraseKey d k0) k = lookupKey d k := by
  intro d
  induction d with
  | nil => rfl
  | cons kv tl ih =>
    by_cases h0 : kv.1 = k0
    · have h2 : ¬(kv.1 = k) := by
        rw [h0]
        exact fun h => hne h.symm
      simp only [eraseKey, lookupKey, if_pos h0, if_neg h2]
      exact ih
    · by_cases h1 : kv.1 = k
      · simp only [eraseKey, lookupKey, if_neg h0, if_pos h1]
      · simp only [eraseKey, lookupKey, if_neg h0, if_neg h1]
        exact ih

theorem dropHeadKeyStep_err (state ckpt : StateDict) (k : String)
    (hck : lookupKey ckpt k ≠ none) (hst : lookupKey state k = none) :
    dropHeadKeyStep state ckpt k = Except.error "KeyError" := by
  unfold dropHeadKeyStep
  cases h : lookupKey ckpt k with
  | none => exact absurd h hck
  | some shp =>
    rw [hst]

theorem dropHeadKeyStep_ok_inv (state ckpt ckpt' : StateDict) (k : String)
    (h : dropHeadKeyStep state ckpt k = Except.ok ckpt') :
    ckpt' = ckpt ∨ ckpt' = eraseKey ckpt k := by
  unfold dropHeadKeyStep at h
  cases h1 : lookupKey ckpt k with
  | none =>
    rw [h1] at h
    injection h with h
    exact Or.inl h.symm
  | some shp =>
    rw [h1] at h
    cases h2 : lookupKey state k with
    | none =>
      rw [h2] at h
      exact Except.noConfusion h
    | some sshp =>
      rw [h2] at h
      have h4 : Except.ok (if shp = sshp then ckpt else eraseKey ckpt k) = Except.ok ckpt' := h
      by_cases h3 : shp = sshp
      · rw [if_pos h3] at h4
        injection h4 with h5
        exact Or.inl h5.symm
      · rw [if_neg h3] at h4
        injection h4 with h5
        exact Or.inr h5.symm

theorem dropKeysFold_err (state : StateDict) (ks : List String) :
    ∀ ckpt : StateDict,
      (∃ k ∈ ks, lookupKey ckpt k ≠ none ∧ lookupKey state k = none) →
      isErrE (ks.foldlM (fun c k2 => dropHeadKeyStep state c k2) ckpt) = true := by
  induction ks with
  | nil =>
    rintro ckpt ⟨k, hk, _⟩
    exact absurd hk (List.not_mem_nil k)
  | cons k0 ks ih =>
    rintro ckpt ⟨k, hk, hck, hst⟩
    have hfold : List.foldlM (fun c k2 => dropHeadKeyStep state c k2) ckpt (k0 :: ks) =
        dropHeadKeyStep state ckpt k0 >>= fun c2 =>
          List.foldlM (fun c k2 => dropHeadKeyStep state c k2) c2 ks := rfl
    rw [hfold]
    cases hstep : dropHeadKeyStep state ckpt k0 with
    | error e =>
      rw [ex_bind_err]
      rfl
    | ok ckpt' =>
      rw [ex_bind_ok]
      by_cases hkk : k = k0
      · subst hkk
        rw [dropHeadKeyStep_err state ckpt k hck hst] at hstep
        exact Except.noConfusion hstep
      · have hmem : k ∈ ks := by
          rcases List.mem_cons.mp hk with rfl | hmem
          · exact absurd rfl hkk
          · exact hmem
        refine ih ckpt' ⟨k, hmem, ?_, hst⟩
        rcases dropHeadKeyStep_ok_inv state ckpt ckpt' k0 hstep with rfl | rfl
        · exact hck
        · rw [lookupKey_eraseKey_ne k0 k hkk]
          exact hck

theorem cubicInterp1D_zero (p0 p1 p2 p3 : ℚ) : cubicInterp1D 0 p0 p1 p2 p3 = p1 := by
  unfold cubicInterp1D cubicConv1 cubicConv2
  ring

theorem srcCoord_same (s o : Nat) (hs : 0 < s) : srcCoord s s o = (o : ℚ) := by
  unfold srcCoord
  rw [div_self (by exact_mod_cast hs.ne' : (s : ℚ) ≠ 0)]
  ring

theorem clampIdx_cast (s r : Nat) (hr : r < s) : clampIdx s (r : Int) = r := by
  unfold clampIdx
  omega

theorem bicubicSample_same_size (g : Nat → Nat → ℚ) (s r c : Nat)
    (hs : 0 < s) (hr : r < s) (hc : c < s) :
    bicubicSample g s s r c = g r c := by
  unfold bicubicSample
  rw [srcCoord_same s r hs, srcCoord_same s c hs]
  simp only [Int.floor_natCast, Int.cast_natCast, sub_self, cubicInterp1D_zero]
  rw [clampIdx_cast s r hr, clampIdx_cast s c hc]

/-- C1.  The claim states that after `set_requires_grad(model, T, freeze=True)`
gradient tracking is enabled iff the parameter name contains `"blocks.<i>"`
for some `i ∈ T`.  The source assigns the branches the other way around
(`param.requires_grad = not freeze` on a match, `= freeze` otherwise, main.py
lines 168-172), so with `targets = [1]` the matching parameter
`blocks.1.mlp.fc1.weight` ends up with tracking disabled while the
non-matching `patch_embed.proj.weight` ends up with tracking enabled —
the exact opposite of the claim, on every input. -/
theorem set_requires_grad_swapped_on_target :
    set_requires_grad [("blocks.1.mlp.fc1.weight", true), ("patch_embed.proj.weight", false)]
        [1] true
      = [("blocks.1.mlp.fc1.weight", false), ("patch_embed.proj.weight", true)] := by
  decide

/-- C2.  The claim states that `set_requires_grad(model, [], freeze=True)`
disables gradient tracking on every parameter (this is the teacher-freezing
call at main.py line 249).  With an empty target list nothing matches, so
the source's else-branch `param.requires_grad = freeze` sets every
parameter's tracking flag to `True`: the call enables tracking everywhere
instead of disabling it. -/
theorem set_requires_grad_empty_targets_all_true :
    set_requires_grad [("cls_token", false), ("blocks.0.attn.qkv.weight", false),
        ("head.weight", false)] [] true
      = [("cls_token", true), ("blocks.0.attn.qkv.weight", true), ("head.weight", true)] := by
  decide

/-- C3.  For `max_index < depth ≤ len(blocks)`, `cut_extra_layers` succeeds;
every block at a position strictly above `max_index` and strictly below
`depth` becomes the identity pass-through `EmptyBlock`, all other positions
are untouched, the `norm`, `fc_norm`, `head_drop` and `head` layers are all
replaced by identities, and in the edge case `max_index = depth - 1` the
block list is unchanged. -/
theorem cut_extra_layers_spec (model : Model) (max_index depth : Nat)
    (h1 : max_index < depth) (h2 : depth ≤ model.blocks.length) :
    ∃ m', cut_extra_layers model (max_index : Int) (depth : Int) = Except.ok m' ∧
      (∀ j : Nat, max_index < j → j < depth → m'.blocks[j]? = some Block.empty) ∧
      (∀ j : Nat, j ≤ max_index ∨ depth ≤ j → m'.blocks[j]? = model.blocks[j]?) ∧
      m'.norm = Layer.identity ∧ m'.fc_norm = Layer.identity ∧
      m'.head_drop = Layer.identity ∧ m'.head = Layer.identity ∧
      (max_index + 1 = depth → m'.blocks = model.blocks) := by
  have hvalid : ∀ i ∈ intRange ((max_index : Int) + 1) (depth : Int),
      -(model.blocks.length : Int) ≤ i ∧ i < (model.blocks.length : Int) := by
    intro i hi
    have := intRange_mem.mp hi
    omega
  obtain ⟨bs', hok, hlen⟩ := setManyE_ok Block.empty _ model.blocks hvalid
  refine ⟨{ model with
            blocks := bs'
            norm := Layer.identity
            fc_norm := Layer.identity
            head_drop := Layer.identity
            head := Layer.identity }, ?_, ?_, ?_, rfl, rfl, rfl, rfl, ?_⟩
  · unfold cut_extra_layers
    rw [hok, ex_bind_ok]
    rfl
  · intro j hj1 hj2
    refine setManyE_hit Block.empty _ _ _ (j : Int) j hok (intRange_mem.mpr (by omega)) ?_
    rw [Int.emod_eq_of_lt (by omega) (by omega : (j : Int) < (model.blocks.length : Int))]
    omega
  · intro j hj
    refine setManyE_miss Block.empty _ _ _ j hok ?_
    intro i hi
    have hir := intRange_mem.mp hi
    rw [Int.emod_eq_of_lt (by omega) (by omega)]
    omega
  · intro hedge
    have hempty : intRange ((max_index : Int) + 1) (depth : Int) = [] := by
      unfold intRange
      have hz : ((depth : Int) - ((max_index : Int) + 1)).toNat = 0 := by omega
      rw [hz]
      rfl
    rw [hempty, setManyE_nil] at hok
    injection hok with hok
    exact hok.symm

/-- Witness for C3 at a concrete 12-block model, `max_index = 9`,
`depth = 12`. -/
theorem cut_extra_layers_spec_witness :
    ∃ m', cut_extra_layers demoModel ((9 : Nat) : Int) ((12 : Nat) : Int) = Except.ok m' ∧
      (∀ j : Nat, 9 < j → j < 12 → m'.blocks[j]? = some Block.empty) ∧
      (∀ j : Nat, j ≤ 9 ∨ 12 ≤ j → m'.blocks[j]? = demoModel.blocks[j]?) ∧
      m'.norm = Layer.identity ∧ m'.fc_norm = Layer.identity ∧
      m'.head_drop = Layer.identity ∧ m'.head = Layer.identity ∧
      (9 + 1 = 12 → m'.blocks = demoModel.blocks) :=
  cut_extra_layers_spec demoModel 9 12 (by decide) (by decide)

/-- C4.  When the table has an entry for the model name and every listed
index is in `[0, len(blocks))`, `replace_att2mixer` succeeds, each listed
block becomes a `MixerBlock` built from exactly the table entry's four
hyperparameters, every non-listed position is unchanged, and the embedding
and head layers are untouched. -/
theorem replace_att2mixer_positional (param_dict : String → Option ArchParams) (model : Model)
    (repl_blocks : List Int) (model_name : String) (p : ArchParams)
    (hp : param_dict model_name = some p)
    (hvalid : ∀ i ∈ repl_blocks, 0 ≤ i ∧ i < (model.blocks.length : Int)) :
    ∃ m', replace_att2mixer param_dict model repl_blocks model_name = Except.ok m' ∧
      m'.blocks.length = model.blocks.length ∧
      (∀ i ∈ repl_blocks, m'.blocks[i.toNat]? =
        some (Block.mixer p.num_patches p.token_hid_dim p.channels_dim p.channels_hid_dim)) ∧
      (∀ j : Nat, (j : Int) ∉ repl_blocks → m'.blocks[j]? = model.blocks[j]?) ∧
      m'.patch_embed = model.patch_embed ∧ m'.norm = model.norm ∧
      m'.fc_norm = model.fc_norm ∧ m'.head_drop = model.head_drop ∧ m'.head = model.head := by
  obtain ⟨bs', hok, hlen⟩ := setManyE_ok
    (Block.mixer p.num_patches p.token_hid_dim p.channels_dim p.channels_hid_dim)
    repl_blocks model.blocks
    (fun i hi => ⟨by have := (hvalid i hi).1; omega, (hvalid i hi).2⟩)
  refine ⟨{ model with blocks := bs' }, ?_, by rw [hlen], ?_, ?_, rfl, rfl, rfl, rfl, rfl⟩
  · rw [replace_eq_setManyE param_dict model repl_blocks model_name p hp, hok, ex_bind_ok]
    rfl
  · intro i hi
    refine setManyE_hit _ repl_blocks _ _ i i.toNat hok hi ?_
    rw [Int.emod_eq_of_lt (hvalid i hi).1 (hvalid i hi).2]
  · intro j hj
    refine setManyE_miss _ repl_blocks _ _ j hok ?_
    intro i hi
    rw [Int.emod_eq_of_lt (hvalid i hi).1 (hvalid i hi).2]
    intro hcontra
    apply hj
    have h0 : (i.toNat : Int) = i := Int.toNat_of_nonneg (hvalid i hi).1
    rw [← hcontra, h0]
    exact hi

/-- Witness for C4: replacing block 1 of the 12-block model with the
`deit_tiny_patch16_224` table entry. -/
theorem replace_att2mixer_positional_witness :
    ∃ m', replace_att2mixer demoTable demoModel [1] "deit_tiny_patch16_224" = Except.ok m' ∧
      m'.blocks.length = demoModel.blocks.length ∧
      (∀ i ∈ [(1 : Int)], m'.blocks[i.toNat]? = some (Block.mixer 196 196 192 768)) ∧
      (∀ j : Nat, (j : Int) ∉ [(1 : Int)] → m'.blocks[j]? = demoModel.blocks[j]?) ∧
      m'.patch_embed = demoModel.patch_embed ∧ m'.norm = demoModel.norm ∧
      m'.fc_norm = demoModel.fc_norm ∧ m'.head_drop = demoModel.head_drop ∧
      m'.head = demoModel.head :=
  replace_att2mixer_positional demoTable demoModel [1] "deit_tiny_patch16_224"
    { num_patches := 196, token_hid_dim := 196, channels_dim := 192, channels_hid_dim := 768 }
    (by decide) (by decide)

/-- C5 counterexample.  The claim says `replace_att2mixer` fails whenever a
given index is outside `[0, depth)`.  With the valid table entry and the
12-block model, the index `-1` is outside `[0, 12)`, yet the call succeeds
(Python sequence indexing accepts negative indices down to `-len`, replacing
the last block): no error is raised. -/
theorem replace_att2mixer_neg_index_ok :
    isErrE (replace_att2mixer demoTable demoModel [-1] "deit_tiny_patch16_224") = false := by
  decide

/-- C5 amended.  `replace_att2mixer` raises iff either the index list is
nonempty and the model name has no table entry (the lookup sits inside the
loop body, so an empty list never reaches it), or the name has an entry and
some listed index is outside Python's valid range `[-len, len)` for the
block sequence; negative indices in `[-len, 0)` are valid and do not fail. -/
theorem replace_att2mixer_error_iff (param_dict : String → Option ArchParams) (model : Model)
    (repl_blocks : List Int) (model_name : String) :
    isErrE (replace_att2mixer param_dict model repl_blocks model_name) = true ↔
      (repl_blocks ≠ [] ∧ param_dict model_name = none) ∨
      (param_dict model_name ≠ none ∧
        ∃ i ∈ repl_blocks,
          ¬(-(model.blocks.length : Int) ≤ i ∧ i < (model.blocks.length : Int))) := by
  cases hp : param_dict model_name with
  | none =>
    cases repl_blocks with
    | nil =>
      rw [replace_nil_eq]
      simp [isErrE]
    | cons x xs =>
      rw [replace_none_cons param_dict model x xs model_name hp]
      simp [isErrE]
  | some p =>
    rw [replace_eq_setManyE param_dict model repl_blocks model_name p hp]
    have hbind : ∀ r : Except String (List Block),
        isErrE (r >>= fun blocks =>
          (pure { model with blocks := blocks } : Except String Model)) = isErrE r := by
      intro r
      cases r <;> rfl
    rw [hbind, setManyE_err_iff]
    simp

/-- C6 counterexample.  The claim says that with neither mode flag set the
orchestrator performs no model construction side effects before raising.
In the source the dataset build, model creation, deep copy and block
replacement (main.py lines 193-228) all precede the mode dispatch, so the
run with `train = eval = False` raises the configuration error only after
`create_model` has happened. -/
theorem mainTrace_neither_still_constructs :
    (mainTrace false false).2 = some "Please specify running mode (eval/train)." ∧
    Effect.createModel ∈ (mainTrace false false).1 := by
  decide

/-- C6 amended.  With neither flag or both flags set, `main` raises the
configuration error (and with exactly one flag set it does not), but in both
failing cases the model-construction effects have already been performed
before the raise. -/
theorem mainTrace_mode_error :
    (mainTrace false false).2 = some "Please specify running mode (eval/train)." ∧
    (mainTrace true true).2 = some "Please specify running mode (eval/train)." ∧
    (mainTrace true false).2 = none ∧
    (mainTrace false true).2 = none ∧
    Effect.createModel ∈ (mainTrace false false).1 ∧
    Effect.createModel ∈ (mainTrace true true).1 := by
  decide

/-- C7.  The positional-embedding resampling of `load_weight` leaves the
leading extra-token rows untouched: for every row index `i < numExtra` and
every channel, the new tensor's entry equals the checkpoint's entry
(`extra_tokens` is concatenated unchanged at main.py lines 126 and 133). -/
theorem load_weight_extra_tokens_unchanged (ckpt : Nat → Nat → ℚ)
    (ckptRows numExtra newSize i e : Nat) (hi : i < numExtra) :
    load_weight_new_pos_embed ckpt ckptRows numExtra newSize i e = ckpt i e := by
  unfold load_weight_new_pos_embed
  rw [if_pos hi]

/-- Witness for C7 at DeiT-tiny dimensions (197 rows, one extra token). -/
theorem load_weight_extra_tokens_unchanged_witness :
    load_weight_new_pos_embed (fun a b => (a : ℚ) * 10 + (b : ℚ)) 197 1 14 0 5
      = (fun a b => (a : ℚ) * 10 + (b : ℚ)) 0 5 :=
  load_weight_extra_tokens_unchanged (fun a b => (a : ℚ) * 10 + (b : ℚ)) 197 1 14 0 5
    (by decide)

/-- C8.  When the checkpoint's grid side equals the target grid side `s`
(checkpoint has `numExtra + s * s` rows and the model wants an `s × s`
grid), the bicubic resampling step is the identity: every entry of the new
positional-embedding tensor equals the checkpoint's entry.  With scale 1 the
source coordinate of output index `o` is exactly `o`, the fractional offset
is `0`, and the cubic kernel weights degenerate to `(0, 1, 0, 0)`. -/
theorem load_weight_resample_identity (ckpt : Nat → Nat → ℚ) (numExtra s i e : Nat)
    (hs : 0 < s) (hi : i < numExtra + s * s) :
    load_weight_new_pos_embed ckpt (numExtra + s * s) numExtra s i e = ckpt i e := by
  unfold load_weight_new_pos_embed
  by_cases hlt : i < numExtra
  · rw [if_pos hlt]
  · rw [if_neg hlt]
    have hsqrt : Nat.sqrt (numExtra + s * s - numExtra) = s := by
      rw [Nat.add_sub_cancel_left, ← pow_two]
      exact Nat.sqrt_eq' s
    simp only [hsqrt]
    have hd : i - numExtra < s * s := by omega
    rw [bicubicSample_same_size _ s _ _ hs ((Nat.div_lt_iff_lt_mul hs).mpr hd)
      (Nat.mod_lt _ hs)]
    have harg : numExtra + ((i - numExtra) / s * s + (i - numExtra) % s) = i := by
      rw [Nat.div_add_mod']
      omega
    rw [harg]

/-- Witness for C8 on a 2×2 grid with one extra-token row, at grid row 3. -/
theorem load_weight_resample_identity_witness :
    load_weight_new_pos_embed (fun a b => (a : ℚ) * 10 + (b : ℚ)) (1 + 2 * 2) 1 2 3 0
      = (fun a b => (a : ℚ) * 10 + (b : ℚ)) 3 0 :=
  load_weight_resample_identity (fun a b => (a : ℚ) * 10 + (b : ℚ)) 1 2 3 0
    (by decide) (by decide)

/-- C9.  If the checkpoint contains one of the four head keys but the
model's own state dict has no parameter of that name, the head-key dropping
loop of `load_weight` raises (`state_dict[k]` at main.py line 112 is an
unconditional lookup once `k in checkpoint_model` holds). -/
theorem load_weight_missing_head_key_error (state ckpt : StateDict)
    (h : ∃ k ∈ head_keys, lookupKey ckpt k ≠ none ∧ lookupKey state k = none) :
    isErrE (load_weight_drop_head_keys state ckpt) = true :=
  dropKeysFold_err state head_keys ckpt h

/-- Witness for C9: the checkpoint has `head.weight`, the model does not. -/
theorem load_weight_missing_head_key_error_witness :
    isErrE (load_weight_drop_head_keys [("pos_embed", [1, 197, 192])]
      [("head.weight", [1000, 192]), ("pos_embed", [1, 197, 192])]) = true :=
  load_weight_missing_head_key_error [("pos_embed", [1, 197, 192])]
    [("head.weight", [1000, 192]), ("pos_embed", [1, 197, 192])]
    ⟨"head.weight", by decide, by decide, by decide⟩

/-- C10 counterexample.  The claim says that for a model with more than 12
blocks, positions 12 and beyond are never replaced with pass-throughs
regardless of the chosen replacement indices.  With the 25-block model and
`replace = [-14]`, `max(replace) = -14` and the loop
`range(-13, 12)` reaches the negative index `-13`, which Python resolves to
position `25 - 13 = 12`: block 12 is replaced by `EmptyBlock`. -/
theorem orchestratorTruncate_wraparound :
    exGetBlock (orchestratorTruncate bigModel [-14]) 12 = some Block.empty := by
  decide

/-- C10 amended.  The orchestrator always truncates with the default depth
12, so whenever `max(replace) ≥ -1` (in particular for any nonnegative
replacement indices) and the model has at least 12 blocks, truncation
succeeds and every block at a position ≥ 12 is left unchanged. -/
theorem orchestratorTruncate_depth12_frame (model : Model) (replace : List Int)
    (hmax : -1 ≤ maxIntList replace) (hlen : 12 ≤ model.blocks.length) :
    ∃ m', orchestratorTruncate model replace = Except.ok m' ∧
      ∀ j : Nat, 12 ≤ j → m'.blocks[j]? = model.blocks[j]? := by
  have hvalid : ∀ i ∈ intRange (maxIntList replace + 1) 12,
      -(model.blocks.length : Int) ≤ i ∧ i < (model.blocks.length : Int) := by
    intro i hi
    have := intRange_mem.mp hi
    omega
  obtain ⟨bs', hok, hlen'⟩ := setManyE_ok Block.empty _ model.blocks hvalid
  refine ⟨{ model with
            blocks := bs'
            norm := Layer.identity
            fc_norm := Layer.identity
            head_drop := Layer.identity
            head := Layer.identity }, ?_, ?_⟩
  · unfold orchestratorTruncate cut_extra_layers
    rw [hok, ex_bind_ok]
    rfl
  · intro j hj
    refine setManyE_miss Block.empty _ _ _ j hok ?_
    intro i hi
    have hir := intRange_mem.mp hi
    rw [Int.emod_eq_of_lt (by omega) (by omega)]
    omega

/-- Witness for C10's amended statement on the 25-block model with
`replace = [3]`. -/
theorem orchestratorTruncate_depth12_frame_witness :
    ∃ m', orchestratorTruncate bigModel [3] = Except.ok m' ∧
      ∀ j : Nat, 12 ≤ j → m'.blocks[j]? = bigModel.blocks[j]? :=
  orchestratorTruncate_depth12_frame bigModel [3] (by decide) (by decide)
